import Mathlib

/-!
Verification of the flac_toolkit structural-integrity and duplicate-detection
core.  The definitions below are a shallow embedding, translated from
`src/flac_toolkit/analyzer.py`, `src/flac_toolkit/dedupe.py` and
`src/flac_toolkit/constants.py`:

* file contents are modelled as `List Nat` (one entry per byte);
* machine integers (numpy `int16` / `int32`) are modelled as `Int` with the
  two's-complement byte views made explicit through `% 2^w`;
* the incremental MD5 accumulator is modelled by keeping the exact byte
  stream fed to `md5.update` and applying an arbitrary digest function
  `md5hex : List Nat → String` to it (the digest is a pure function of the
  concatenation of all updates);
* Python exceptions are modelled by the `PyResult` sum type.
-/

namespace FlacToolkit

/-- A metadata block header parsed by `_check_file_header_manually`
(analyzer.py line 119): `{'type': block_type, 'length': length, 'is_last': is_last}`. -/
structure MetadataBlock where
  type : Nat
  length : Nat
  is_last : Bool
deriving DecidableEq

/-- The scan errors appended by `_check_file_header_manually` (analyzer.py
lines 114, 124, 126). -/
inductive ScanError where
  | unexpectedEof
  | signatureNotFound
  | lowLevelReadError (msg : String)
deriving DecidableEq

/-- The dictionary built by `_check_file_header_manually` (analyzer.py line 106). -/
structure HeaderInfo where
  is_flac : Bool
  metadata_blocks : List MetadataBlock
  errors : List ScanError
deriving DecidableEq

/-- The byte values of the container signature `b'fLaC'`. -/
def flacSignature : List Nat := [102, 76, 97, 67]

/-- The `while True` loop of `_check_file_header_manually` (analyzer.py lines
111-121), reading from byte position `pos` of `data`: read a 4-byte block
header (fewer than 4 bytes available records "unexpected end of file" and
stops); decode bit 7 of byte 0 as `is_last`, its low 7 bits as the type, and
bytes 1-3 as a big-endian 24-bit length; seek `length` bytes past the payload;
stop when `is_last` is set. -/
def scanBlocks (data : List Nat) (pos : Nat) : List MetadataBlock × List ScanError :=
  if hlen : ((data.drop pos).take 4).length < 4 then
    ([], [ScanError.unexpectedEof])
  else
    let hdr := (data.drop pos).take 4
    let b0 := hdr.getD 0 0
    let is_last := decide (b0 &&& 128 ≠ 0)
    let btype := b0 &&& 127
    let len := (hdr.getD 1 0) * 65536 + (hdr.getD 2 0) * 256 + hdr.getD 3 0
    let blk : MetadataBlock := { type := btype, length := len, is_last := is_last }
    if is_last then
      ([blk], [])
    else
      let rest := scanBlocks data (pos + 4 + len)
      (blk :: rest.1, rest.2)
termination_by data.length - pos
decreasing_by
  simp only [List.length_take, List.length_drop] at hlen
  omega

/-- Embedding of `_check_file_header_manually` (analyzer.py lines 105-127): check the 4-byte
signature, then walk the metadata-block chain.  On a signature mismatch no
block parsing happens and exactly one error is recorded. -/
def checkFileHeaderManually (data : List Nat) : HeaderInfo :=
  if data.take 4 = flacSignature then
    let r := scanBlocks data 4
    { is_flac := true, metadata_blocks := r.1, errors := r.2 }
  else
    { is_flac := false, metadata_blocks := [], errors := [ScanError.signatureNotFound] }

/-! ### Metadata Validator (`_analyze_metadata_blocks`, constants.py) -/

/-- constants.py line 5. -/
def PADDING_BLOCK_TYPE : Nat := 1

/-- constants.py line 4: `16777216  # 16.77 MB - 24 bit`. -/
def PADDING_SIZE_THRESHOLD_BYTES : Nat := 16777216

/-- The error strings appended by `_analyze_metadata_blocks` (analyzer.py
lines 135, 140, 145), with their numeric payloads kept explicit. -/
inductive MetaError where
  | streaminfoMissing
  | oversizedPadding (length : Nat)
  | invalidSeektableSize (length : Nat)
deriving DecidableEq

/-- The per-block checks of the `for block in blocks` loop of
`_analyze_metadata_blocks` (analyzer.py lines 137-145): the padding-size check
runs first, the seek-table divisibility check second; both may fire for the
same block. -/
def checkBlock (b : MetadataBlock) : List MetaError :=
  (if b.type = PADDING_BLOCK_TYPE ∧ b.length > PADDING_SIZE_THRESHOLD_BYTES then
    [MetaError.oversizedPadding b.length] else [])
  ++ (if b.type = 3 ∧ b.length % 18 ≠ 0 then
    [MetaError.invalidSeektableSize b.length] else [])

/-- Embedding of `_analyze_metadata_blocks` (analyzer.py lines 129-147): the STREAMINFO
presence check, then the per-block loop accumulating into `errors`. -/
def analyzeMetadataBlocks (blocks : List MetadataBlock) : List MetaError :=
  let errors := if blocks.any (fun b => b.type == 0) then [] else [MetaError.streaminfoMissing]
  blocks.foldl (fun errs b => errs ++ checkBlock b) errors

/-! ### Content Checksum Engine (`_calculate_audio_md5`) -/

/-- Result of a Python call that may raise: `ok` is a normal return, `exn`
carries `str(e)` of the caught exception. -/
inductive PyResult (α : Type) where
  | ok (val : α)
  | exn (msg : String)
deriving DecidableEq

/-- The two bytes of a numpy `int16` sample as stored by `block.tobytes()`
(little-endian two's complement). -/
def int16Bytes (x : Int) : List Nat :=
  let u := (x % 65536).toNat
  [u % 256, u / 256 % 256]

/-- The four bytes of a numpy `int32` sample as exposed by
`view(np.uint8).reshape(-1, 4)` (little-endian two's complement). -/
def int32Bytes (x : Int) : List Nat :=
  let u := (x % 4294967296).toNat
  [u % 256, u / 256 % 256, u / 65536 % 256, u / 16777216 % 256]

/-- Three little-endian two's-complement bytes of a 24-bit signed sample. -/
def int24Bytes (x : Int) : List Nat :=
  let u := (x % 16777216).toNat
  [u % 256, u / 256 % 256, u / 65536 % 256]

/-- numpy's arithmetic right shift `>> 8` on `int32` values: floor division
by 2^8 (analyzer.py line 199). -/
def asr8 (x : Int) : Int := Int.fdiv x 256

/-- Packing for 16-bit depth (analyzer.py lines 182-187): the samples' `int16` bytes in
declared order. -/
def pack16 (samples : List Int) : List Nat := samples.flatMap int16Bytes

/-- Packing for 24-bit depth (analyzer.py lines 189-202): shift each 32-bit container
right by 8 arithmetically, then keep the low 3 of its 4 little-endian bytes
(`bytes_view[:, :3]`). -/
def pack24FromInt32 (samples : List Int) : List Nat :=
  samples.flatMap (fun s => (int32Bytes (asr8 s)).take 3)

/-- Modelled from the spec: the reference representation of the same 24-bit
stream "supplied as raw 3-byte little-endian values", against which the
engine's packing is compared. -/
def pack24Raw (samples : List Int) : List Nat := samples.flatMap int24Bytes

/-- Embedding of `_calculate_audio_md5` (analyzer.py lines 170-209).  `md5hex` stands for
`hashlib.md5(...).hexdigest()` applied to the concatenation of all
`md5.update` calls; `decoded` is the outcome of decoding the file's samples
(the flattened interleaved stream in declared order, or the raised
exception).  Returns the `(md5_hex, error_message)` pair of the source. -/
def calculateAudioMD5 (md5hex : List Nat → String) (bits_per_sample : Nat)
    (decoded : PyResult (List Int)) : Option String × Option String :=
  if bits_per_sample = 16 then
    match decoded with
    | PyResult.ok samples => (some (md5hex (pack16 samples)), none)
    | PyResult.exn e => (none, some e)
  else if bits_per_sample = 24 then
    match decoded with
    | PyResult.ok samples => (some (md5hex (pack24FromInt32 samples)), none)
    | PyResult.exn e => (none, some e)
  else
    (none, some ("MD5 calculation not implemented for " ++ toString bits_per_sample
      ++ "-bit depth."))

/-! ### Finding Aggregator (`analyze_flac_comprehensive`) -/

/-- The fields of `audio.info` that the analyzed code reads:
`md5_signature` (the header-embedded 128-bit fingerprint, 0 when unset) and
`bits_per_sample`. -/
structure StreamInfoData where
  md5_signature : Nat
  bits_per_sample : Nat
deriving DecidableEq

/-- One hexadecimal digit character, lower case. -/
def hexDigitChar (n : Nat) : Char :=
  if n < 10 then Char.ofNat (48 + n) else Char.ofNat (87 + n)

/-- Hexadecimal digits of `n`, most significant first (`fuel` bounds the
number of digits; 32 suffices for any 128-bit value). -/
def hexDigits : Nat → Nat → List Char
  | 0, _ => []
  | fuel + 1, n => if n = 0 then [] else hexDigits fuel (n / 16) ++ [hexDigitChar (n % 16)]

/-- Python's `format(sig, '032x')` for a 128-bit signature: lower-case hex,
zero-padded to 32 characters. -/
def format032x (n : Nat) : String :=
  let ds := hexDigits 32 n
  String.mk (List.replicate (32 - ds.length) '0' ++ ds)

/-- The entries appended to `result['errors']` by `analyze_flac_comprehensive`
(analyzer.py lines 29, 31, 63, 65, 67, 91, 93), with the two exception
branches of the `try` block collapsed into `structureError`. -/
inductive AnalysisError where
  | headerError (e : ScanError)
  | metaError (e : MetaError)
  | md5CalculationError (msg : String)
  | md5Mismatch (hdr calculated : String)
  | md5UnsetInHeader
  | structureError (msg : String)
deriving DecidableEq

/-- The derived per-file status (analyzer.py lines 20-21, 95-99). -/
inductive Status where
  | valid
  | validWithWarnings
  | invalid
deriving DecidableEq

/-- The slice of the per-file result relevant to structural findings. -/
structure FileAnalysis where
  status : Status
  errors : List AnalysisError
  warnings : List String
deriving DecidableEq

/-- analyzer.py lines 20-21 and 95-99: the status starts `'INVALID'` and is
upgraded only when the final error list is empty. -/
def deriveStatus (errors : List AnalysisError) (warnings : List String) : Status :=
  if errors.isEmpty then
    if warnings.isEmpty then Status.valid else Status.validWithWarnings
  else Status.invalid

/-- Embedding of `analyze_flac_comprehensive` (analyzer.py lines 18-103) downstream of the
header scan: header-scan errors, then the metadata-validator errors, then the
`try` block (`FLAC(file_path)` modelled by `mutagenResult`, the decoder by
`decoded`, `_analyze_filename_compatibility` by `filenameWarnings`;
`_analyze_data_structure` contributes no errors or warnings).  The MD5
branch chain is lines 62-67. -/
def aggregateAnalysis (md5hex : List Nat → String) (ha : HeaderInfo)
    (mutagenResult : PyResult StreamInfoData) (decoded : PyResult (List Int))
    (filenameWarnings : List String) : FileAnalysis :=
  let errs0 := ha.errors.map AnalysisError.headerError
      ++ (analyzeMetadataBlocks ha.metadata_blocks).map AnalysisError.metaError
  match mutagenResult with
  | PyResult.exn e =>
      { status := deriveStatus (errs0 ++ [AnalysisError.structureError e]) [],
        errors := errs0 ++ [AnalysisError.structureError e],
        warnings := [] }
  | PyResult.ok info =>
      let md5_header : Option String :=
        if info.md5_signature ≠ 0 then some (format032x info.md5_signature) else none
      let calcPair := calculateAudioMD5 md5hex info.bits_per_sample decoded
      let errs1 :=
        match calcPair.2 with
        | some m => errs0 ++ [AnalysisError.md5CalculationError m]
        | none =>
          match md5_header, calcPair.1 with
          | some h, some c =>
              if h ≠ c then errs0 ++ [AnalysisError.md5Mismatch h c] else errs0
          | none, _ => errs0 ++ [AnalysisError.md5UnsetInHeader]
          | some _, none => errs0
      { status := deriveStatus errs1 filenameWarnings,
        errors := errs1,
        warnings := filenameWarnings }

/-- The whole of `analyze_flac_comprehensive`: manual header scan (line 26)
feeding the aggregation. -/
def analyzeFlacComprehensive (md5hex : List Nat → String) (data : List Nat)
    (mutagenResult : PyResult StreamInfoData) (decoded : PyResult (List Int))
    (filenameWarnings : List String) : FileAnalysis :=
  aggregateAnalysis md5hex (checkFileHeaderManually data) mutagenResult decoded filenameWarnings

/-! ### Duplicate Grouping Engine (`dedupe.py`) -/

/-- One corpus file as seen by `_get_audio_signature` and `find_duplicates`:
its identity (`path`), the outcome of `FLAC(file_path)` (`mutagenResult`),
the outcome of decoding its samples (`decoded`), and the SHA256 whole-file
hash computed by `get_file_content_hash` (`contentHash`). -/
structure FileModel where
  path : Nat
  mutagenResult : PyResult StreamInfoData
  decoded : PyResult (List Int)
  contentHash : Nat
deriving DecidableEq

/-- Embedding of `_get_audio_signature` (dedupe.py lines 28-47): prefer the non-zero
header signature, otherwise fall back to `_calculate_audio_md5`; any raised
exception becomes `(file_path, None, str(e))`.  Returns the
`(file_path, signature_hex, error_message)` triple of the source. -/
def getAudioSignature (md5hex : List Nat → String) (f : FileModel) :
    FileModel × Option String × Option String :=
  match f.mutagenResult with
  | PyResult.exn e => (f, none, some e)
  | PyResult.ok info =>
      if info.md5_signature = 0 then
        let calcPair := calculateAudioMD5 md5hex info.bits_per_sample f.decoded
        match calcPair.1 with
        | some c => (f, some c, none)
        | none => (f, none, calcPair.2)
      else
        (f, some (format032x info.md5_signature), none)

/-- One `DuplicateGroup` of dedupe.py lines 14-17. -/
structure DuplicateGroup where
  audio_md5 : String
  files : List FileModel
  strict_groups : List (List FileModel)
deriving DecidableEq

/-- Model of `defaultdict(list)` with insertion-ordered keys, as updated by
`audio_map[key].append(f)`: append `f` to the list of the first entry whose
key is `k`, or append a fresh `(k, [f])` entry at the end. -/
def mapAppend {κ : Type} [DecidableEq κ] (m : List (κ × List FileModel)) (k : κ)
    (f : FileModel) : List (κ × List FileModel) :=
  match m with
  | [] => [(k, [f])]
  | (k', fs) :: rest =>
      if k' = k then (k', fs ++ [f]) :: rest
      else (k', fs) :: mapAppend rest k f

/-- The signature-collection phase of `find_duplicates` (dedupe.py lines
59-86), processing the per-file results of `_get_audio_signature` in the
order `order`: a result with an error message is skipped (it is logged and
excluded), otherwise the file is appended under its signature.  In
sequential mode (`workers == 1`) `order` is the input file order; in the
default parallel mode it is the `as_completed` task-completion order. -/
def buildAudioMap (md5hex : List Nat → String) (order : List FileModel) :
    List (String × List FileModel) :=
  order.foldl (fun m f =>
    let r := getAudioSignature md5hex f
    match r.2.2 with
    | some _ => m
    | none =>
      match r.2.1 with
      | some s => mapAppend m s r.1
      | none => m) []

/-- The strict-duplicate refinement of `find_duplicates` (dedupe.py lines
95-101): group the bucket's files by whole-file content hash and keep the
classes with more than one member. -/
def strictGroupsOf (fileGroup : List FileModel) : List (List FileModel) :=
  let cm := fileGroup.foldl (fun cm f => mapAppend cm f.contentHash f)
    ([] : List (Nat × List FileModel))
  (cm.filter (fun kv => kv.2.length > 1)).map (fun kv => kv.2)

/-- Embedding of `find_duplicates` (dedupe.py lines 50-109) downstream of file discovery:
collect signatures in processing order, keep the buckets with more than one
file, and refine each into strict groups. -/
def findDuplicates (md5hex : List Nat → String) (order : List FileModel) :
    List DuplicateGroup :=
  let m := buildAudioMap md5hex order
  let potential := m.filter (fun kv => kv.2.length > 1)
  potential.map (fun kv =>
    { audio_md5 := kv.1, files := kv.2, strict_groups := strictGroupsOf kv.2 })

/-! ### Helper lemmas -/

/-- Recognizer for the oversized-padding error. -/
def isOversizedPaddingError : MetaError → Bool
  | MetaError.oversizedPadding _ => true
  | _ => false

/-- Recognizer for the invalid-seek-table-size error. -/
def isSeektableSizeError : MetaError → Bool
  | MetaError.invalidSeektableSize _ => true
  | _ => false

/-- The effective insertion key of a processed file in the signature map:
`some sig` when `_get_audio_signature` returned no error and a signature,
`none` when the file is skipped. -/
def okSig (md5hex : List Nat → String) (f : FileModel) : Option String :=
  match (getAudioSignature md5hex f).2.2 with
  | some _ => none
  | none => (getAudioSignature md5hex f).2.1

/-- One step of a grouping fold: insert `f` under its (optional) key. -/
def keyStep {κ : Type} [DecidableEq κ] (keyOpt : FileModel → Option κ)
    (m : List (κ × List FileModel)) (f : FileModel) : List (κ × List FileModel) :=
  match keyOpt f with
  | some k => mapAppend m k f
  | none => m

/-- Lookup in an insertion-ordered association map (the list of a
`defaultdict(list)` key, `[]` when the key is absent). -/
def assocGet {κ : Type} [DecidableEq κ] (m : List (κ × List FileModel)) (k : κ) :
    List FileModel :=
  match m with
  | [] => []
  | (k', fs) :: rest => if k' = k then fs else assocGet rest k

/-- The files of the fingerprint bucket `k` after processing `order`. -/
def bucketFiles (md5hex : List Nat → String) (order : List FileModel) (k : String) :
    List FileModel :=
  assocGet (buildAudioMap md5hex order) k

theorem foldl_checkBlock (blocks : List MetadataBlock) :
    ∀ init, blocks.foldl (fun errs b => errs ++ checkBlock b) init
      = init ++ blocks.flatMap checkBlock := by
  induction blocks with
  | nil => intro init; simp
  | cons b bs ih =>
      intro init
      simp only [List.foldl_cons, List.flatMap_cons, ih, List.append_assoc]

theorem countP_flatMap_checkBlock (p : MetaError → Bool) (q : MetadataBlock → Bool)
    (h : ∀ b, (checkBlock b).countP p = if q b then 1 else 0) (blocks : List MetadataBlock) :
    (blocks.flatMap checkBlock).countP p = blocks.countP q := by
  induction blocks with
  | nil => simp
  | cons b bs ih =>
      simp only [List.flatMap_cons, List.countP_append, List.countP_cons, ih, h b]
      cases hq : q b
      · simp
      · simp [Nat.add_comm]

theorem countP_checkBlock_oversized (b : MetadataBlock) :
    (checkBlock b).countP isOversizedPaddingError
      = if b.type = PADDING_BLOCK_TYPE ∧ b.length > PADDING_SIZE_THRESHOLD_BYTES
        then 1 else 0 := by
  unfold checkBlock
  split_ifs <;>
    simp_all [isOversizedPaddingError, List.countP_append, List.countP_cons]

theorem countP_checkBlock_seektable (b : MetadataBlock) :
    (checkBlock b).countP isSeektableSizeError
      = if b.type = 3 ∧ b.length % 18 ≠ 0 then 1 else 0 := by
  unfold checkBlock
  split_ifs <;>
    simp_all [isSeektableSizeError, List.countP_append, List.countP_cons]

theorem countP_streaminfo_check (blocks : List MetadataBlock) (p : MetaError → Bool)
    (hp : p MetaError.streaminfoMissing = false) :
    (if blocks.any (fun b => b.type == 0) then ([] : List MetaError)
      else [MetaError.streaminfoMissing]).countP p = 0 := by
  split_ifs <;> simp [List.countP_cons, hp]

theorem countP_analyzeMetadataBlocks (blocks : List MetadataBlock)
    (p : MetaError → Bool) (q : MetadataBlock → Bool)
    (hp : p MetaError.streaminfoMissing = false)
    (h : ∀ b, (checkBlock b).countP p = if q b then 1 else 0) :
    (analyzeMetadataBlocks blocks).countP p = blocks.countP q := by
  unfold analyzeMetadataBlocks
  rw [foldl_checkBlock, List.countP_append, countP_streaminfo_check blocks p hp,
    countP_flatMap_checkBlock p q h blocks, Nat.zero_add]

/-! ### C2 — oversized-padding rule -/

/-- C2 (amended): the padding threshold in the code is the single constant
`PADDING_SIZE_THRESHOLD_BYTES = 16777216` bytes, not a bit-depth-dependent
value: the validator emits exactly one oversized-padding error per padding
block whose length exceeds 16777216; a padding block of length 200000 emits
none, while one of length 16777217 emits exactly one. -/
theorem padding_threshold_behaviour :
    (∀ blocks : List MetadataBlock,
      (analyzeMetadataBlocks blocks).countP isOversizedPaddingError
        = blocks.countP (fun b =>
            decide (b.type = PADDING_BLOCK_TYPE
              ∧ b.length > PADDING_SIZE_THRESHOLD_BYTES)))
    ∧ (analyzeMetadataBlocks
        [{ type := 0, length := 34, is_last := false },
         { type := 1, length := 16777217, is_last := true }]).countP
        isOversizedPaddingError = 1
    ∧ (analyzeMetadataBlocks
        [{ type := 0, length := 34, is_last := false },
         { type := 1, length := 200000, is_last := true }]).countP
        isOversizedPaddingError = 0 := by
  refine ⟨fun blocks => ?_, by decide, by decide⟩
  refine countP_analyzeMetadataBlocks blocks _ _ rfl fun b => ?_
  rw [countP_checkBlock_oversized]
  by_cases hb : b.type = PADDING_BLOCK_TYPE ∧ b.length > PADDING_SIZE_THRESHOLD_BYTES <;>
    simp [hb]

/-- C2 (counterexample): on a block list containing one padding block of
length 200000 the validator emits zero oversized-padding errors, not the one
error the claim's assumed 16-bit threshold of 131072 would demand. -/
theorem padding_scenarioA_counterexample :
    ¬ ((analyzeMetadataBlocks
        [{ type := 0, length := 34, is_last := false },
         { type := 1, length := 200000, is_last := true }]).countP
        isOversizedPaddingError = 1) := by
  decide

/-! ### C7 — seek-table size rule -/

/-- C7: the validator emits exactly one invalid-seek-table-size error per
type-3 block whose length is not a multiple of 18; in particular a block
list containing one seek-table block of length 19 yields exactly one such
error. -/
theorem seektable_size_check :
    (∀ blocks : List MetadataBlock,
      (analyzeMetadataBlocks blocks).countP isSeektableSizeError
        = blocks.countP (fun b => decide (b.type = 3 ∧ b.length % 18 ≠ 0)))
    ∧ (analyzeMetadataBlocks
        [{ type := 0, length := 34, is_last := false },
         { type := 3, length := 19, is_last := true }]).countP
        isSeektableSizeError = 1 := by
  refine ⟨fun blocks => ?_, by decide⟩
  refine countP_analyzeMetadataBlocks blocks _ _ rfl fun b => ?_
  rw [countP_checkBlock_seektable]
  by_cases hb : b.type = 3 ∧ b.length % 18 ≠ 0 <;> simp [hb]

/-! ### C3 — unsupported bit depth -/

/-- C3: for every declared bit depth outside 16 and 24, the Content Checksum
Engine returns no fingerprint and reports an unsupported-bit-depth error,
whatever the decoder would have produced. -/
theorem unsupported_bit_depth_no_fingerprint (md5hex : List Nat → String)
    (bits : Nat) (decoded : PyResult (List Int))
    (h16 : bits ≠ 16) (h24 : bits ≠ 24) :
    (calculateAudioMD5 md5hex bits decoded).1 = none
    ∧ (calculateAudioMD5 md5hex bits decoded).2.isSome = true := by
  simp [calculateAudioMD5, h16, h24]

theorem unsupported_bit_depth_no_fingerprint_witness :
    (8 ≠ 16) ∧ (8 ≠ 24)
    ∧ ((calculateAudioMD5 (fun _ => "") 8 (PyResult.ok [])).1 = none
       ∧ (calculateAudioMD5 (fun _ => "") 8 (PyResult.ok [])).2.isSome = true) :=
  ⟨by decide, by decide,
    unsupported_bit_depth_no_fingerprint (fun _ => "") 8 (PyResult.ok [])
      (by decide) (by decide)⟩

/-! ### C1 — 24-bit packing invariance -/

theorem asr8_mul256 (s : Int) : asr8 (s * 256) = s := by
  unfold asr8
  exact Int.mul_fdiv_cancel s (by norm_num)

theorem int32_take3_eq_int24 (s : Int) : (int32Bytes s).take 3 = int24Bytes s := by
  unfold int32Bytes int24Bytes
  have h0 : s % 4294967296 % 16777216 = s % 16777216 :=
    Int.emod_emod_of_dvd s (by norm_num)
  simp only [List.take_succ_cons, List.take_zero, List.cons.injEq, and_true]
  refine ⟨?_, ?_, ?_⟩ <;> omega

theorem pack24_shifted_eq_raw (samples : List Int) :
    pack24FromInt32 (samples.map (fun s => s * 256)) = pack24Raw samples := by
  induction samples with
  | nil => rfl
  | cons s rest ih =>
      simp only [pack24FromInt32, pack24Raw, List.map_cons, List.flatMap_cons] at *
      rw [asr8_mul256, int32_take3_eq_int24, ih]

/-- C1: the Content Checksum Engine's 24-bit packing is invariant to the
decoder representation: the fingerprint computed from samples supplied as
32-bit containers left-shifted by 8 bits equals the fingerprint (the same
digest function `md5hex`) computed from the same samples supplied as raw
3-byte little-endian values. -/
theorem checksum_packing_invariant (md5hex : List Nat → String)
    (samples : List Int) :
    (calculateAudioMD5 md5hex 24 (PyResult.ok (samples.map (fun s => s * 256)))).1
      = some (md5hex (pack24Raw samples)) := by
  simp [calculateAudioMD5, pack24_shifted_eq_raw]

/-! ### C4 — signature mismatch -/

/-- C4: on any byte stream whose first 4 bytes are not the container
signature, the Block Scanner reports an invalid container with exactly one
scan error and an empty block list, and performs no block parsing. -/
theorem bad_signature_scan (data : List Nat) (h : data.take 4 ≠ flacSignature) :
    (checkFileHeaderManually data).is_flac = false
    ∧ (checkFileHeaderManually data).errors = [ScanError.signatureNotFound]
    ∧ (checkFileHeaderManually data).metadata_blocks = [] := by
  simp [checkFileHeaderManually, h]

theorem bad_signature_scan_witness :
    ([0, 1, 2, 3] : List Nat).take 4 ≠ flacSignature
    ∧ ((checkFileHeaderManually [0, 1, 2, 3]).is_flac = false
       ∧ (checkFileHeaderManually [0, 1, 2, 3]).errors = [ScanError.signatureNotFound]
       ∧ (checkFileHeaderManually [0, 1, 2, 3]).metadata_blocks = []) :=
  ⟨by decide, bad_signature_scan [0, 1, 2, 3] (by decide)⟩

/-! ### C5 — loop termination shape -/

theorem scanBlocks_ends (data : List Nat) (pos : Nat) :
    ScanError.unexpectedEof ∈ (scanBlocks data pos).2
    ∨ ∃ b, (scanBlocks data pos).1.getLast? = some b ∧ b.is_last = true := by
  suffices main : ∀ (n p : Nat), data.length - p ≤ n →
      (ScanError.unexpectedEof ∈ (scanBlocks data p).2
        ∨ ∃ b, (scanBlocks data p).1.getLast? = some b ∧ b.is_last = true) by
    exact main data.length pos (Nat.sub_le _ _)
  intro n
  induction n with
  | zero =>
      intro p hp
      have hlen : ((data.drop p).take 4).length < 4 := by
        simp only [List.length_take, List.length_drop]
        omega
      rw [scanBlocks, dif_pos hlen]
      simp
  | succ n ih =>
      intro p hp
      by_cases hlen : ((data.drop p).take 4).length < 4
      · rw [scanBlocks, dif_pos hlen]
        simp
      · rw [scanBlocks, dif_neg hlen]
        dsimp only
        by_cases hl :
            decide (((data.drop p).take 4).getD 0 0 &&& 128 ≠ 0) = true
        · rw [if_pos hl]
          exact Or.inr ⟨_, rfl, hl⟩
        · rw [if_neg hl]
          have hge : 4 ≤ data.length - p := by
            simp only [List.length_take, List.length_drop] at hlen
            omega
          have hrec := ih (p + 4 + (((data.drop p).take 4).getD 1 0 * 65536
              + ((data.drop p).take 4).getD 2 0 * 256
              + ((data.drop p).take 4).getD 3 0)) (by omega)
          rcases hrec with h | ⟨b, hb1, hb2⟩
          · exact Or.inl h
          · refine Or.inr ⟨b, ?_, hb2⟩
            cases hr : (scanBlocks data (p + 4 + (((data.drop p).take 4).getD 1 0 * 65536
                + ((data.drop p).take 4).getD 2 0 * 256
                + ((data.drop p).take 4).getD 3 0))).1 with
            | nil => rw [hr] at hb1; simp at hb1
            | cons c l =>
                rw [hr] at hb1
                simpa [List.getLast?_cons_cons] using hb1

/-- C5: on any finite byte stream carrying the container signature, the
block-reading loop (a total function of the stream: it terminates on every
input) stops either at a block with `is_last = true` or through the
end-of-stream branch that records the unexpected-end-of-file error; whenever
the scan reports no error — in particular on every well-formed container —
the last scanned block has `is_last = true`. -/
theorem scanner_loop_ends (data : List Nat) (h : data.take 4 = flacSignature) :
    (ScanError.unexpectedEof ∈ (checkFileHeaderManually data).errors
      ∨ ∃ b, (checkFileHeaderManually data).metadata_blocks.getLast? = some b
          ∧ b.is_last = true)
    ∧ ((checkFileHeaderManually data).errors = [] →
        ∃ b, (checkFileHeaderManually data).metadata_blocks.getLast? = some b
          ∧ b.is_last = true) := by
  have hsc := scanBlocks_ends data 4
  have hrw : checkFileHeaderManually data
      = { is_flac := true, metadata_blocks := (scanBlocks data 4).1,
          errors := (scanBlocks data 4).2 } := by
    rw [checkFileHeaderManually, if_pos h]
  rw [hrw]
  refine ⟨hsc, fun hemp => ?_⟩
  rcases hsc with hmem | hok
  · dsimp only at hemp
    rw [hemp] at hmem
    simp at hmem
  · exact hok

theorem scanner_loop_ends_witness :
    ([102, 76, 97, 67, 128, 0, 0, 0] : List Nat).take 4 = flacSignature
    ∧ ((ScanError.unexpectedEof
          ∈ (checkFileHeaderManually [102, 76, 97, 67, 128, 0, 0, 0]).errors
        ∨ ∃ b, (checkFileHeaderManually
            [102, 76, 97, 67, 128, 0, 0, 0]).metadata_blocks.getLast? = some b
          ∧ b.is_last = true)
      ∧ ((checkFileHeaderManually [102, 76, 97, 67, 128, 0, 0, 0]).errors = [] →
          ∃ b, (checkFileHeaderManually
              [102, 76, 97, 67, 128, 0, 0, 0]).metadata_blocks.getLast? = some b
            ∧ b.is_last = true)) :=
  ⟨by decide, scanner_loop_ends [102, 76, 97, 67, 128, 0, 0, 0] (by decide)⟩

/-! ### C6, C10 — aggregated findings and derived status -/

theorem deriveStatus_of_mem {x : AnalysisError} {errors : List AnalysisError}
    (w : List String) (h : x ∈ errors) : deriveStatus errors w = Status.invalid := by
  unfold deriveStatus
  rw [if_neg]
  simp only [List.isEmpty_eq_true]
  rintro rfl
  simp at h

theorem analyzeMetadataBlocks_no_streaminfo {blocks : List MetadataBlock}
    (h : ∀ b ∈ blocks, b.type ≠ 0) :
    analyzeMetadataBlocks blocks
      = [MetaError.streaminfoMissing] ++ blocks.flatMap checkBlock := by
  unfold analyzeMetadataBlocks
  rw [foldl_checkBlock]
  have hany : blocks.any (fun b => b.type == 0) = false := by
    simp only [List.any_eq_false]
    intro b hb
    simpa using h b hb
  rw [hany]
  simp

theorem aggregate_errors_superset (md5hex : List Nat → String) (ha : HeaderInfo)
    (mr : PyResult StreamInfoData) (dec : PyResult (List Int)) (fw : List String) :
    ∃ tail, (aggregateAnalysis md5hex ha mr dec fw).errors
      = (ha.errors.map AnalysisError.headerError
         ++ (analyzeMetadataBlocks ha.metadata_blocks).map AnalysisError.metaError)
        ++ tail := by
  unfold aggregateAnalysis
  cases mr with
  | exn e => exact ⟨[AnalysisError.structureError e], rfl⟩
  | ok info =>
      dsimp only
      cases hc : (calculateAudioMD5 md5hex info.bits_per_sample dec).2 with
      | some m => exact ⟨[AnalysisError.md5CalculationError m], by simp⟩
      | none =>
          cases hc1 : (calculateAudioMD5 md5hex info.bits_per_sample dec).1 with
          | some c =>
              by_cases hs : info.md5_signature = 0
              · exact ⟨[AnalysisError.md5UnsetInHeader], by simp [hs]⟩
              · by_cases hne : format032x info.md5_signature = c
                · exact ⟨[], by simp [hs, hne]⟩
                · exact ⟨[AnalysisError.md5Mismatch (format032x info.md5_signature) c],
                    by simp [hs, hne]⟩
          | none =>
              by_cases hs : info.md5_signature = 0
              · exact ⟨[AnalysisError.md5UnsetInHeader], by simp [hs]⟩
              · exact ⟨[], by simp [hs]⟩

theorem aggregate_status_def (md5hex : List Nat → String) (ha : HeaderInfo)
    (mr : PyResult StreamInfoData) (dec : PyResult (List Int)) (fw : List String) :
    (aggregateAnalysis md5hex ha mr dec fw).status
      = deriveStatus (aggregateAnalysis md5hex ha mr dec fw).errors
          (aggregateAnalysis md5hex ha mr dec fw).warnings := by
  unfold aggregateAnalysis
  cases mr <;> rfl

/-- C6: if no scanned block has type 0, the Metadata Validator emits the
stream-info-missing error, the comprehensive analysis carries that finding,
and the derived status is INVALID. -/
theorem streaminfo_missing_invalid (md5hex : List Nat → String) (ha : HeaderInfo)
    (mr : PyResult StreamInfoData) (dec : PyResult (List Int)) (fw : List String)
    (h : ∀ b ∈ ha.metadata_blocks, b.type ≠ 0) :
    AnalysisError.metaError MetaError.streaminfoMissing
      ∈ (aggregateAnalysis md5hex ha mr dec fw).errors
    ∧ (aggregateAnalysis md5hex ha mr dec fw).status = Status.invalid := by
  have hmem0 : MetaError.streaminfoMissing ∈ analyzeMetadataBlocks ha.metadata_blocks := by
    rw [analyzeMetadataBlocks_no_streaminfo h]
    exact List.mem_append_left _ (by simp)
  obtain ⟨tail, htail⟩ := aggregate_errors_superset md5hex ha mr dec fw
  have hmem : AnalysisError.metaError MetaError.streaminfoMissing
      ∈ (aggregateAnalysis md5hex ha mr dec fw).errors := by
    rw [htail]
    exact List.mem_append_left _
      (List.mem_append_right _ (List.mem_map_of_mem _ hmem0))
  exact ⟨hmem, by rw [aggregate_status_def]; exact deriveStatus_of_mem _ hmem⟩

theorem streaminfo_missing_invalid_witness :
    (∀ b ∈ (⟨true, [], []⟩ : HeaderInfo).metadata_blocks, b.type ≠ 0)
    ∧ (AnalysisError.metaError MetaError.streaminfoMissing
        ∈ (aggregateAnalysis (fun _ => "") ⟨true, [], []⟩ (PyResult.exn "boom")
            (PyResult.exn "boom") []).errors
      ∧ (aggregateAnalysis (fun _ => "") ⟨true, [], []⟩ (PyResult.exn "boom")
          (PyResult.exn "boom") []).status = Status.invalid) :=
  ⟨by simp, streaminfo_missing_invalid (fun _ => "") ⟨true, [], []⟩
    (PyResult.exn "boom") (PyResult.exn "boom") [] (by simp)⟩

/-- C10: when the header MD5 signature field is zero and the checksum
computation reports no error (in particular when the fallback computation
over the decoded samples succeeds), the comprehensive analysis appends the
MD5-unset error and the derived status is INVALID. -/
theorem md5_unset_invalid (md5hex : List Nat → String) (ha : HeaderInfo)
    (info : StreamInfoData) (dec : PyResult (List Int)) (fw : List String)
    (hsig : info.md5_signature = 0)
    (hnoerr : (calculateAudioMD5 md5hex info.bits_per_sample dec).2 = none) :
    AnalysisError.md5UnsetInHeader
      ∈ (aggregateAnalysis md5hex ha (PyResult.ok info) dec fw).errors
    ∧ (aggregateAnalysis md5hex ha (PyResult.ok info) dec fw).status
      = Status.invalid := by
  have hmem : AnalysisError.md5UnsetInHeader
      ∈ (aggregateAnalysis md5hex ha (PyResult.ok info) dec fw).errors := by
    unfold aggregateAnalysis
    dsimp only
    rw [hnoerr]
    simp only [hsig, ne_eq, not_true_eq_false, if_false]
    simp
  exact ⟨hmem, by rw [aggregate_status_def]; exact deriveStatus_of_mem _ hmem⟩

theorem md5_unset_invalid_witness :
    (⟨0, 16⟩ : StreamInfoData).md5_signature = 0
    ∧ (calculateAudioMD5 (fun _ => "d") (⟨0, 16⟩ : StreamInfoData).bits_per_sample
        (PyResult.ok [])).2 = none
    ∧ (AnalysisError.md5UnsetInHeader
        ∈ (aggregateAnalysis (fun _ => "d") ⟨true, [⟨0, 34, true⟩], []⟩
            (PyResult.ok ⟨0, 16⟩) (PyResult.ok []) []).errors
      ∧ (aggregateAnalysis (fun _ => "d") ⟨true, [⟨0, 34, true⟩], []⟩
          (PyResult.ok ⟨0, 16⟩) (PyResult.ok []) []).status = Status.invalid) :=
  ⟨rfl, rfl,
    md5_unset_invalid (fun _ => "d") ⟨true, [⟨0, 34, true⟩], []⟩ ⟨0, 16⟩
      (PyResult.ok []) [] rfl rfl⟩

/-! ### C8, C9 — duplicate grouping -/

theorem getAudioSignature_fst (md5hex : List Nat → String) (f : FileModel) :
    (getAudioSignature md5hex f).1 = f := by
  unfold getAudioSignature
  cases f.mutagenResult with
  | exn e => rfl
  | ok info =>
      dsimp only
      by_cases hs : info.md5_signature = 0
      · rw [if_pos hs]
        cases (calculateAudioMD5 md5hex info.bits_per_sample f.decoded).1 <;> rfl
      · rw [if_neg hs]

theorem buildAudioMap_eq_keyFold (md5hex : List Nat → String) (order : List FileModel) :
    buildAudioMap md5hex order = order.foldl (keyStep (okSig md5hex)) [] := by
  unfold buildAudioMap
  congr 1
  funext m f
  simp only [keyStep, okSig, getAudioSignature_fst]
  cases (getAudioSignature md5hex f).2.2 with
  | some e => rfl
  | none => cases (getAudioSignature md5hex f).2.1 <;> rfl

theorem mapAppend_mem {κ : Type} [DecidableEq κ] (m : List (κ × List FileModel))
    (k : κ) (f x : FileModel) (kv : κ × List FileModel)
    (hkv : kv ∈ mapAppend m k f) (hx : x ∈ kv.2) :
    (∃ kv2 ∈ m, x ∈ kv2.2) ∨ x = f := by
  induction m with
  | nil =>
      simp only [mapAppend, List.mem_singleton] at hkv
      subst hkv
      simp only [List.mem_singleton] at hx
      exact Or.inr hx
  | cons a rest ih =>
      obtain ⟨k', fs⟩ := a
      by_cases hk : k' = k
      · rw [mapAppend, if_pos hk] at hkv
        rcases List.mem_cons.mp hkv with rfl | hmem
        · rcases List.mem_append.mp hx with hxf | hxf
          · exact Or.inl ⟨(k', fs), List.mem_cons_self _ _, hxf⟩
          · exact Or.inr (List.mem_singleton.mp hxf)
        · exact Or.inl ⟨kv, List.mem_cons_of_mem _ hmem, hx⟩
      · rw [mapAppend, if_neg hk] at hkv
        rcases List.mem_cons.mp hkv with rfl | hmem
        · exact Or.inl ⟨(k', fs), List.mem_cons_self _ _, hx⟩
        · rcases ih hmem with ⟨kv2, h2, hx2⟩ | hxf
          · exact Or.inl ⟨kv2, List.mem_cons_of_mem _ h2, hx2⟩
          · exact Or.inr hxf

theorem keyFold_mem {κ : Type} [DecidableEq κ] (keyOpt : FileModel → Option κ) :
    ∀ (L : List FileModel) (init : List (κ × List FileModel))
      (kv : κ × List FileModel) (x : FileModel),
      kv ∈ L.foldl (keyStep keyOpt) init → x ∈ kv.2 →
      (∃ kv2 ∈ init, x ∈ kv2.2) ∨ (x ∈ L ∧ keyOpt x ≠ none) := by
  intro L
  induction L with
  | nil =>
      intro init kv x hkv hx
      exact Or.inl ⟨kv, hkv, hx⟩
  | cons f L ih =>
      intro init kv x hkv hx
      rw [List.foldl_cons] at hkv
      rcases ih (keyStep keyOpt init f) kv x hkv hx with ⟨kv2, hkv2, hx2⟩ | ⟨hxL, hkey⟩
      · cases hko : keyOpt f with
        | none =>
            simp only [keyStep, hko] at hkv2
            exact Or.inl ⟨kv2, hkv2, hx2⟩
        | some k =>
            simp only [keyStep, hko] at hkv2
            rcases mapAppend_mem init k f x kv2 hkv2 hx2 with h | rfl
            · exact Or.inl h
            · exact Or.inr ⟨List.mem_cons_self _ _, by rw [hko]; simp⟩
      · exact Or.inr ⟨List.mem_cons_of_mem _ hxL, hkey⟩

theorem assocGet_mapAppend {κ : Type} [DecidableEq κ] (m : List (κ × List FileModel))
    (k k' : κ) (f : FileModel) :
    assocGet (mapAppend m k f) k'
      = if k = k' then assocGet m k' ++ [f] else assocGet m k' := by
  induction m with
  | nil =>
      simp only [mapAppend, assocGet]
      split_ifs <;> simp
  | cons a rest ih =>
      obtain ⟨a1, fs⟩ := a
      by_cases hk : a1 = k
      · subst hk
        rw [mapAppend, if_pos rfl]
        by_cases hk' : a1 = k'
        · subst hk'
          simp [assocGet]
        · rw [assocGet, if_neg hk', assocGet, if_neg hk', if_neg hk']
      · rw [mapAppend, if_neg hk]
        by_cases hk' : a1 = k'
        · subst hk'
          have hkk' : ¬ k = a1 := fun h => hk h.symm
          rw [assocGet, if_pos rfl, assocGet, if_pos rfl, if_neg hkk']
        · rw [assocGet, if_neg hk', assocGet, if_neg hk', ih]

theorem assocGet_keyFold {κ : Type} [DecidableEq κ] (keyOpt : FileModel → Option κ) :
    ∀ (L : List FileModel) (init : List (κ × List FileModel)) (k : κ),
      assocGet (L.foldl (keyStep keyOpt) init) k
        = assocGet init k ++ L.filter (fun f => decide (keyOpt f = some k)) := by
  intro L
  induction L with
  | nil => intro init k; simp
  | cons f L ih =>
      intro init k
      rw [List.foldl_cons, ih, List.filter_cons]
      cases hko : keyOpt f with
      | none =>
          simp only [keyStep, hko]
          simp
      | some s =>
          simp only [keyStep, hko, assocGet_mapAppend]
          by_cases hsk : s = k
          · subst hsk
            simp [List.append_assoc]
          · simp [hsk]

/-- The files collected in any bucket of the audio map are exactly the
processed files carrying that signature, in processing order. -/
theorem bucketFiles_eq_filter (md5hex : List Nat → String) (order : List FileModel)
    (k : String) :
    bucketFiles md5hex order k
      = order.filter (fun f => decide (okSig md5hex f = some k)) := by
  rw [bucketFiles, buildAudioMap_eq_keyFold, assocGet_keyFold]
  rfl

/-- C8: a file whose audio signature cannot be obtained (per-file exception,
or zero header fingerprint with a failed fallback checksum) never appears in
any duplicate bucket or strict group of the grouping output; `find_duplicates`
is a total function of the corpus, so such a file never aborts the run. -/
theorem failed_fingerprint_excluded (md5hex : List Nat → String)
    (order : List FileModel) (f : FileModel)
    (herr : (getAudioSignature md5hex f).2.2.isSome = true) :
    ∀ g ∈ findDuplicates md5hex order,
      f ∉ g.files ∧ ∀ sg ∈ g.strict_groups, f ∉ sg := by
  intro g hg
  unfold findDuplicates at hg
  rcases List.mem_map.mp hg with ⟨kv, hkvfil, rfl⟩
  have hkv : kv ∈ buildAudioMap md5hex order := (List.mem_filter.mp hkvfil).1
  have hok : okSig md5hex f = none := by
    unfold okSig
    cases hsome : (getAudioSignature md5hex f).2.2 with
    | none => rw [hsome] at herr; simp at herr
    | some e => rfl
  have hnotin : f ∉ kv.2 := by
    intro hf
    rw [buildAudioMap_eq_keyFold] at hkv
    rcases keyFold_mem (okSig md5hex) order [] kv f hkv hf with ⟨kv2, h2, _⟩ | ⟨_, hkey⟩
    · simp at h2
    · exact hkey hok
  refine ⟨hnotin, fun sg hsg hf => ?_⟩
  have hsg2 : sg ∈ strictGroupsOf kv.2 := hsg
  unfold strictGroupsOf at hsg2
  rcases List.mem_map.mp hsg2 with ⟨kv2, hkv2fil, rfl⟩
  have hkv2 : kv2 ∈ kv.2.foldl (keyStep (fun f => some f.contentHash)) [] :=
    (List.mem_filter.mp hkv2fil).1
  rcases keyFold_mem (fun f => some f.contentHash) kv.2 [] kv2 f hkv2 hf with
    ⟨kv3, h3, _⟩ | ⟨hfin, _⟩
  · simp at h3
  · exact hnotin hfin

theorem failed_fingerprint_excluded_witness :
    ((getAudioSignature (fun _ => "m")
        ⟨0, PyResult.exn "bad", PyResult.exn "bad", 0⟩).2.2.isSome = true)
    ∧ (∀ g ∈ findDuplicates (fun _ => "m")
        [⟨0, PyResult.exn "bad", PyResult.exn "bad", 0⟩,
         ⟨1, PyResult.ok ⟨7, 16⟩, PyResult.ok [], 11⟩,
         ⟨2, PyResult.ok ⟨7, 16⟩, PyResult.ok [], 11⟩],
        (⟨0, PyResult.exn "bad", PyResult.exn "bad", 0⟩ : FileModel) ∉ g.files
        ∧ ∀ sg ∈ g.strict_groups,
            (⟨0, PyResult.exn "bad", PyResult.exn "bad", 0⟩ : FileModel) ∉ sg) :=
  ⟨rfl, failed_fingerprint_excluded (fun _ => "m") _ _ rfl⟩

/-- C9 (amended): the grouping output is a pure function of the order in
which per-file signature results are processed — identical when the
completion order (always the input order in sequential mode) is identical —
and the contents of each fingerprint bucket, as well as of each
content-hash class inside a bucket (the strict-group candidates), are the
same up to permutation for any two completion orders of the same corpus;
the bucket sequence and within-bucket file order, however, follow the
completion order. -/
theorem dedupe_determinism (md5hex : List Nat → String)
    (order1 order2 : List FileModel) (hperm : order1.Perm order2) :
    (order1 = order2 → findDuplicates md5hex order1 = findDuplicates md5hex order2)
    ∧ (∀ k, (bucketFiles md5hex order1 k).Perm (bucketFiles md5hex order2 k))
    ∧ (∀ k h, ((bucketFiles md5hex order1 k).filter
          (fun f => decide (f.contentHash = h))).Perm
        ((bucketFiles md5hex order2 k).filter
          (fun f => decide (f.contentHash = h)))) := by
  have hbucket : ∀ k, (bucketFiles md5hex order1 k).Perm (bucketFiles md5hex order2 k) := by
    intro k
    rw [bucketFiles_eq_filter, bucketFiles_eq_filter]
    exact hperm.filter _
  exact ⟨fun he => by rw [he], hbucket, fun k h => (hbucket k).filter _⟩

theorem dedupe_determinism_witness :
    (([⟨1, PyResult.ok ⟨7, 16⟩, PyResult.ok [], 11⟩,
       ⟨2, PyResult.ok ⟨7, 16⟩, PyResult.ok [], 12⟩] : List FileModel).Perm
      [⟨2, PyResult.ok ⟨7, 16⟩, PyResult.ok [], 12⟩,
       ⟨1, PyResult.ok ⟨7, 16⟩, PyResult.ok [], 11⟩])
    ∧ ((([⟨1, PyResult.ok ⟨7, 16⟩, PyResult.ok [], 11⟩,
         ⟨2, PyResult.ok ⟨7, 16⟩, PyResult.ok [], 12⟩] : List FileModel)
          = [⟨2, PyResult.ok ⟨7, 16⟩, PyResult.ok [], 12⟩,
             ⟨1, PyResult.ok ⟨7, 16⟩, PyResult.ok [], 11⟩] →
        findDuplicates (fun _ => "x")
          [⟨1, PyResult.ok ⟨7, 16⟩, PyResult.ok [], 11⟩,
           ⟨2, PyResult.ok ⟨7, 16⟩, PyResult.ok [], 12⟩]
          = findDuplicates (fun _ => "x")
            [⟨2, PyResult.ok ⟨7, 16⟩, PyResult.ok [], 12⟩,
             ⟨1, PyResult.ok ⟨7, 16⟩, PyResult.ok [], 11⟩])
      ∧ (∀ k, (bucketFiles (fun _ => "x")
            [⟨1, PyResult.ok ⟨7, 16⟩, PyResult.ok [], 11⟩,
             ⟨2, PyResult.ok ⟨7, 16⟩, PyResult.ok [], 12⟩] k).Perm
          (bucketFiles (fun _ => "x")
            [⟨2, PyResult.ok ⟨7, 16⟩, PyResult.ok [], 12⟩,
             ⟨1, PyResult.ok ⟨7, 16⟩, PyResult.ok [], 11⟩] k))
      ∧ (∀ k h, ((bucketFiles (fun _ => "x")
              [⟨1, PyResult.ok ⟨7, 16⟩, PyResult.ok [], 11⟩,
               ⟨2, PyResult.ok ⟨7, 16⟩, PyResult.ok [], 12⟩] k).filter
            (fun f => decide (f.contentHash = h))).Perm
          ((bucketFiles (fun _ => "x")
              [⟨2, PyResult.ok ⟨7, 16⟩, PyResult.ok [], 12⟩,
               ⟨1, PyResult.ok ⟨7, 16⟩, PyResult.ok [], 11⟩] k).filter
            (fun f => decide (f.contentHash = h))))) :=
  ⟨List.Perm.swap _ _ _, dedupe_determinism (fun _ => "x") _ _ (List.Perm.swap _ _ _)⟩

/-- C9 (counterexample): with the same two-file corpus processed in two
different signature-completion orders — both reachable runs of the default
parallel mode over the same input order — `find_duplicates` produces
different outputs: the within-bucket file order follows completion order. -/
theorem dedupe_order_counterexample :
    findDuplicates (fun _ => "x")
      [⟨1, PyResult.ok ⟨7, 16⟩, PyResult.ok [], 11⟩,
       ⟨2, PyResult.ok ⟨7, 16⟩, PyResult.ok [], 12⟩]
    ≠ findDuplicates (fun _ => "x")
      [⟨2, PyResult.ok ⟨7, 16⟩, PyResult.ok [], 12⟩,
       ⟨1, PyResult.ok ⟨7, 16⟩, PyResult.ok [], 11⟩] := by
  decide

end FlacToolkit
